import Mathlib

/-!
Verification of the streaming-event reconciliation engine: a shallow
embedding of the chat-run registry, the agent event router
(createAgentEventHandler with emitToolEvent / emitChatDelta /
emitChatFinal), the client-side chat reconciler (handleChatEvent), and
the tool-card pairer (collectAndPairToolCards), together with theorems
about sequence-gap diagnostics, message-index assignment, abort
handling, state cleanup, backpressure tagging and pairing.

JS Maps are modelled as association lists with unique keys (amGet /
amSet / amDel); stateful handlers become pure functions from a state
plus an event to a new state and a list of emitted notifications;
Date.now() becomes an explicit `now` parameter; external collaborators
(session-key resolution, verbosity lookup, error formatting) are fields
of an environment record.
-/

/-- Association-list model of a JS `Map<string, α>` (keys kept unique by
the operations below). -/
abbrev AMap (α : Type) := List (String × α)

def amGet {α : Type} : AMap α → String → Option α
  | [], _ => none
  | (k', v) :: rest, k => if k' = k then some v else amGet rest k

/-- `map.set(k, v)`: replace the binding for `k`, or append a new one. -/
def amSet {α : Type} : AMap α → String → α → AMap α
  | [], k, v => [(k, v)]
  | (k', v') :: rest, k, v =>
      if k' = k then (k, v) :: rest else (k', v') :: amSet rest k v

/-- `map.delete(k)`: remove the binding for `k`. -/
def amDel {α : Type} : AMap α → String → AMap α
  | [], _ => []
  | (k', v) :: rest, k => if k' = k then amDel rest k else (k', v) :: amDel rest k

def amHas {α : Type} (m : AMap α) (k : String) : Bool := (amGet m k).isSome

/-- `ChatRunEntry = { sessionKey, clientRunId }`. -/
structure ChatRunEntry where
  sessionKey : String
  clientRunId : String
deriving DecidableEq

/-- JS string truthiness: a string is truthy iff it is nonempty. -/
def strTruthy (s : String) : Bool := s ≠ ""

def optStrTruthy : Option String → Bool
  | some s => strTruthy s
  | none => false

/-- `registry.add(sessionId, entry)`: push onto the queue for the key,
creating the queue if absent. -/
def registryAdd (m : AMap (List ChatRunEntry)) (sid : String) (e : ChatRunEntry) :
    AMap (List ChatRunEntry) :=
  match amGet m sid with
  | some q => amSet m sid (q ++ [e])
  | none => amSet m sid [e]

/-- `registry.peek(sessionId)`: head of the queue, if any. -/
def registryPeek (m : AMap (List ChatRunEntry)) (sid : String) : Option ChatRunEntry :=
  (amGet m sid).bind List.head?

/-- `registry.shift(sessionId)`: remove and return the head; delete the
queue entirely once empty. -/
def registryShift (m : AMap (List ChatRunEntry)) (sid : String) :
    AMap (List ChatRunEntry) × Option ChatRunEntry :=
  match amGet m sid with
  | none => (m, none)
  | some [] => (m, none)
  | some (e :: rest) =>
      ((if rest.isEmpty then amDel m sid else amSet m sid rest), some e)

/-- The predicate used by `registry.remove`: clientRunId must match and,
when a truthy sessionKey is supplied, the sessionKey must match too
(`entry.clientRunId === clientRunId && (sessionKey ? entry.sessionKey === sessionKey : true)`). -/
def entryMatches (cid : String) (sk : Option String) (e : ChatRunEntry) : Bool :=
  e.clientRunId == cid && (if optStrTruthy sk then e.sessionKey == sk.getD "" else true)

/-- JS `Array.prototype.findIndex`. -/
def findIdxFrom (p : ChatRunEntry → Bool) : List ChatRunEntry → Option Nat
  | [] => none
  | x :: rest => if p x then some 0 else (findIdxFrom p rest).map (· + 1)

/-- `registry.remove(sessionId, clientRunId, sessionKey?)`: splice out the
first matching entry (head included), delete the queue once empty, return
the removed entry or `undefined`. -/
def registryRemove (m : AMap (List ChatRunEntry)) (sid cid : String) (sk : Option String) :
    AMap (List ChatRunEntry) × Option ChatRunEntry :=
  match amGet m sid with
  | none => (m, none)
  | some q =>
      if q.isEmpty then (m, none)
      else
        match findIdxFrom (entryMatches cid sk) q with
        | none => (m, none)
        | some idx =>
            let q2 := q.eraseIdx idx
            ((if q2.isEmpty then amDel m sid else amSet m sid q2), q[idx]?)

/-- The fields of `AgentEventPayload` the handler reads: `runId`, `seq`,
`stream`, and the `data.phase` / `data.name` / `data.text` / `data.error`
members (each `none` when absent or not a string). -/
structure AgentEvent where
  runId : String
  seq : Nat
  stream : String
  dataPhase : Option String
  dataName : Option String
  dataText : Option String
  dataError : Option String
deriving DecidableEq

/-- Outbound payloads built by the router.  `agentEvt` is the raw event
(re-broadcast, optionally with a sessionKey spliced in); `seqGap` is the
gap diagnostic; the `chat*` constructors are the chat-channel
notifications; `ctxCleared` records the `clearAgentRunContext` callback
invocation (an external side effect, recorded as an output for
completeness). -/
inductive OutPayload where
  | agentEvt (evt : AgentEvent) (sessionKey : Option String)
  | seqGap (runId : String) (sessionKey : Option String) (ts expected received : Nat)
  | chatTool (runId sessionKey : String) (seq : Nat) (state toolName : String)
  | chatDelta (runId sessionKey : String) (seq messageIndex : Nat) (text : String) (ts : Nat)
  | chatFinal (runId sessionKey : String) (seq : Nat)
  | chatError (runId sessionKey : String) (seq : Nat) (errorMessage : Option String)
  | ctxCleared (runId : String)
deriving DecidableEq

/-- One outbound call: `broadcast(channel, payload, { dropIfSlow })` when
`target = none`, or `nodeSendToSession(target, channel, payload)` (which
carries no options, hence `dropIfSlow = false`). -/
structure Emission where
  channel : String
  payload : OutPayload
  dropIfSlow : Bool
  target : Option String
deriving DecidableEq

/-- External collaborators of the router, passed in (or imported from
modules outside this subsystem) and abstracted as functions:
`resolveSessionKeyForRun`, the verbosity decision `shouldEmitToolEvents`
(its body only consults external run-context/session configuration), and
the error formatter `formatForLog`. -/
structure Env where
  resolveSessionKeyForRun : String → Option String
  shouldEmitToolEvents : String → Option String → Bool
  formatForLog : String → String

/-- The mutable state the router closes over: the RunLink registry, the
RunProgress map `messageIndexByRun`, the AbortMarker map `abortedRuns`,
and the per-run sequence counter `agentRunSeq`. -/
structure RouterState where
  registry : AMap (List ChatRunEntry)
  messageIndexByRun : AMap Nat
  abortedRuns : AMap Nat
  agentRunSeq : AMap Nat
deriving DecidableEq

def chatLinkOf (st : RouterState) (evt : AgentEvent) : Option ChatRunEntry :=
  registryPeek st.registry evt.runId

def sessionKeyOf (env : Env) (st : RouterState) (evt : AgentEvent) : Option String :=
  match chatLinkOf st evt with
  | some l => some l.sessionKey
  | none => env.resolveSessionKeyForRun evt.runId

def clientRunIdOf (st : RouterState) (evt : AgentEvent) : String :=
  match chatLinkOf st evt with
  | some l => l.clientRunId
  | none => evt.runId

def isAbortedOf (st : RouterState) (evt : AgentEvent) : Bool :=
  amHas st.abortedRuns (clientRunIdOf st evt) || amHas st.abortedRuns evt.runId

def lifecyclePhaseOf (evt : AgentEvent) : Option String :=
  if evt.stream = "lifecycle" then evt.dataPhase else none

/-- `emitToolEvent`: on phase "start" increment the run's message index
first, then broadcast and per-session-send the tool notification. -/
def emitToolEvent (st : RouterState) (sessionKey clientRunId : String) (seq : Nat)
    (phase toolName : String) : RouterState × List Emission :=
  let st1 :=
    if phase = "start" then
      { st with
          messageIndexByRun := amSet st.messageIndexByRun clientRunId
            ((amGet st.messageIndexByRun clientRunId).getD 0 + 1) }
    else st
  let payload := OutPayload.chatTool clientRunId sessionKey seq
      (if phase = "start" then "tool-start" else "tool-end") toolName
  (st1, [⟨"chat", payload, false, none⟩, ⟨"chat", payload, false, some sessionKey⟩])

/-- `emitChatDelta`: read the current message index (0 when unseen),
initialize the entry to 0 on first sight, broadcast the delta with
`dropIfSlow: true` and per-session-send it. -/
def emitChatDelta (now : Nat) (st : RouterState) (sessionKey clientRunId : String)
    (seq : Nat) (text : String) : RouterState × List Emission :=
  let messageIndex := (amGet st.messageIndexByRun clientRunId).getD 0
  let st1 :=
    if amHas st.messageIndexByRun clientRunId then st
    else { st with messageIndexByRun := amSet st.messageIndexByRun clientRunId 0 }
  let payload := OutPayload.chatDelta clientRunId sessionKey seq messageIndex text now
  (st1, [⟨"chat", payload, true, none⟩, ⟨"chat", payload, false, some sessionKey⟩])

/-- `emitChatFinal`: delete the run's message-index entry, then broadcast
and per-session-send a `final` (jobState "done") or `error` notification. -/
def emitChatFinal (env : Env) (st : RouterState) (sessionKey clientRunId : String)
    (seq : Nat) (jobState : String) (error : Option String) : RouterState × List Emission :=
  let st1 := { st with messageIndexByRun := amDel st.messageIndexByRun clientRunId }
  if jobState = "done" then
    let payload := OutPayload.chatFinal clientRunId sessionKey seq
    (st1, [⟨"chat", payload, false, none⟩, ⟨"chat", payload, false, some sessionKey⟩])
  else
    let payload := OutPayload.chatError clientRunId sessionKey seq
        ((error.filter strTruthy).map env.formatForLog)
    (st1, [⟨"chat", payload, false, none⟩, ⟨"chat", payload, false, some sessionKey⟩])

/-- The if/else-if chain inside the handler's `if (sessionKey)` block:
classify the event, emit the chat notification(s) and update the chat
state.  The third component is true exactly on the source's early
`return` path (no dequeued link), which skips the bottom-of-handler
cleanup (whose ctx emission the path has already produced itself). -/
def sessionBranch (env : Env) (now : Nat) (st2 : RouterState) (evt : AgentEvent)
    (sk : String) (chatLink : Option ChatRunEntry) (clientRunId : String)
    (isAborted : Bool) : RouterState × List Emission × Bool :=
  let lp := lifecyclePhaseOf evt
  if isAborted = false ∧ evt.stream = "assistant" ∧ evt.dataText.isSome = true then
    let r := emitChatDelta now st2 sk clientRunId evt.seq (evt.dataText.getD "")
    (r.1, r.2, false)
  else if isAborted = false ∧ evt.stream = "tool" ∧ evt.dataPhase.isSome = true ∧
      evt.dataName.isSome = true then
    if evt.dataPhase = some "start" then
      let r := emitToolEvent st2 sk clientRunId evt.seq "start" (evt.dataName.getD "")
      (r.1, r.2, false)
    else if evt.dataPhase = some "result" then
      let r := emitToolEvent st2 sk clientRunId evt.seq "end" (evt.dataName.getD "")
      (r.1, r.2, false)
    else (st2, [], false)
  else if isAborted = false ∧ (lp = some "end" ∨ lp = some "error") then
    match chatLink with
    | some _ =>
      let sh := registryShift st2.registry evt.runId
      let st3 := { st2 with registry := sh.1 }
      match sh.2 with
      | none =>
          (st3, [⟨"ctx", OutPayload.ctxCleared evt.runId, false, none⟩], true)
      | some fin =>
          let r := emitChatFinal env st3 fin.sessionKey fin.clientRunId evt.seq
              (if lp = some "error" then "error" else "done") evt.dataError
          (r.1, r.2, false)
    | none =>
      let r := emitChatFinal env st2 sk evt.runId evt.seq
          (if lp = some "error" then "error" else "done") evt.dataError
      (r.1, r.2, false)
  else if isAborted = true ∧ (lp = some "end" ∨ lp = some "error") then
    let st3 := { st2 with
      abortedRuns := amDel (amDel st2.abortedRuns clientRunId) evt.runId,
      messageIndexByRun := amDel st2.messageIndexByRun clientRunId }
    let st4 :=
      match chatLink with
      | some _ => { st3 with registry := (registryRemove st3.registry evt.runId clientRunId (some sk)).1 }
      | none => st3
    (st4, [], false)
  else (st2, [], false)

/-- The event handler returned by `createAgentEventHandler`, as a pure
function from router state and event to new state plus ordered emissions.
JS truthiness is modelled throughout: the payload splice
`sessionKey ? { ...evt, sessionKey } : evt` and the whole
`if (sessionKey)` block treat an empty-string session key as falsy. -/
def handleAgentEvent (env : Env) (now : Nat) (st : RouterState) (evt : AgentEvent) :
    RouterState × List Emission :=
  let chatLink := chatLinkOf st evt
  let sessionKey := sessionKeyOf env st evt
  let clientRunId := clientRunIdOf st evt
  let isAborted := isAbortedOf st evt
  let agentPayload := OutPayload.agentEvt evt
      (if optStrTruthy sessionKey = true then sessionKey else none)
  let last := (amGet st.agentRunSeq evt.runId).getD 0
  let skipDetailed := evt.stream = "tool" && !(env.shouldEmitToolEvents evt.runId sessionKey)
  -- the suppressed-tool path records the seq early; the unconditional
  -- record below overwrites it with the same value, so only the
  -- agentRunSeq field is affected either way
  let seq1 := if skipDetailed then amSet st.agentRunSeq evt.runId evt.seq else st.agentRunSeq
  let gapEmits : List Emission :=
    if evt.seq ≠ last + 1 then
      [⟨"agent", OutPayload.seqGap evt.runId sessionKey now (last + 1) evt.seq, false, none⟩]
    else []
  let st2 := { st with agentRunSeq := amSet seq1 evt.runId evt.seq }
  let agentEmits : List Emission :=
    if skipDetailed then [] else [⟨"agent", agentPayload, false, none⟩]
  let lp := lifecyclePhaseOf evt
  let clearEmits : List Emission :=
    if lp = some "end" ∨ lp = some "error" then [⟨"ctx", OutPayload.ctxCleared evt.runId, false, none⟩]
    else []
  match sessionKey with
  | none => (st2, gapEmits ++ agentEmits ++ clearEmits)
  | some sk =>
    if strTruthy sk = true then
      let sendAgent : List Emission :=
        if skipDetailed then [] else [⟨"agent", agentPayload, false, some sk⟩]
      let sb := sessionBranch env now st2 evt sk chatLink clientRunId isAborted
      (sb.1, gapEmits ++ agentEmits ++ sendAgent ++ sb.2.1 ++
        (if sb.2.2 then [] else clearEmits))
    else (st2, gapEmits ++ agentEmits ++ clearEmits)

/-- Process a list of events in order, threading the state and
concatenating the emissions. -/
def processEvents (env : Env) (now : Nat) : RouterState → List AgentEvent →
    RouterState × List Emission
  | st, [] => (st, [])
  | st, e :: rest =>
      let r1 := handleAgentEvent env now st e
      let r2 := processEvents env now r1.1 rest
      (r2.1, r1.2 ++ r2.2)

/-- The session key the router resolves for any event of run `r`
(link head first, collateral resolver second). -/
def runSessionKey (env : Env) (st : RouterState) (r : String) : Option String :=
  match registryPeek st.registry r with
  | some l => some l.sessionKey
  | none => env.resolveSessionKeyForRun r

/-- The client run id the router resolves for any event of run `r`. -/
def runClientId (st : RouterState) (r : String) : String :=
  match registryPeek st.registry r with
  | some l => l.clientRunId
  | none => r

def isGapEm (em : Emission) : Bool :=
  match em.payload with
  | OutPayload.seqGap _ _ _ _ _ => true
  | _ => false

def isDeltaEm (em : Emission) : Bool :=
  match em.payload with
  | OutPayload.chatDelta _ _ _ _ _ _ => true
  | _ => false

def isChatEm (em : Emission) : Bool := em.channel == "chat"

/-- A well-formed tool-start event as the router recognises it. -/
def isToolStartEvt (e : AgentEvent) : Bool :=
  e.stream == "tool" && e.dataPhase == some "start"

def countToolStarts (trace : List AgentEvent) : Nat :=
  trace.countP (fun e => isToolStartEvt e)

/-! ## Client reconciler (transient streaming-message array strategy) -/

/-- `StreamingMessage = { index, text, startedAt }`. -/
structure StreamingMessage where
  index : Nat
  text : String
  startedAt : Nat
deriving DecidableEq

/-- The reconciler's `ChatState`.  `clientPresent` stands for the nullable
`client` handle (only its null-ness is ever observed) and `chatMessages`
elements are opaque to the handler, modelled as strings. -/
structure ChatState where
  clientPresent : Bool
  connected : Bool
  sessionKey : String
  chatLoading : Bool
  chatMessages : List String
  chatThinkingLevel : Option String
  chatSending : Bool
  chatMessage : String
  chatRunId : Option String
  chatStreamMessages : List StreamingMessage
  chatToolsRunning : Nat
  chatCurrentTool : Option String
  lastError : Option String
deriving DecidableEq

/-- `ChatEventPayload`.  `messageText` models `extractText(payload.message)`.
Modelled from the spec: `extractText` lives in a module outside this
subsystem; per the spec a delta's `message.content` is
`[{type:"text", text}]` and extraction of the same payload is
deterministic, so the payload carries the extracted text directly
(`none` when extraction does not yield a string). -/
structure ChatEventPayload where
  runId : String
  sessionKey : String
  state : String
  messageIndex : Option Nat
  messageText : Option String
  errorMessage : Option String
  toolName : Option String
deriving DecidableEq

/-- Set the text of the first streaming message with the given index
(the JS code mutates the object returned by `find`). -/
def updateFirstText : List StreamingMessage → Nat → String → List StreamingMessage
  | [], _, _ => []
  | m :: rest, mi, t =>
      if m.index = mi then { m with text := t } :: rest
      else m :: updateFirstText rest mi t

/-- Stable insertion by ascending index; `sortByIndex` models the stable
`sort((a, b) => a.index - b.index)`. -/
def insertByIndex (m : StreamingMessage) : List StreamingMessage → List StreamingMessage
  | [] => [m]
  | x :: rest => if x.index < m.index then x :: insertByIndex m rest else m :: x :: rest

def sortByIndex (l : List StreamingMessage) : List StreamingMessage :=
  l.foldr insertByIndex []

/-- `handleChatEvent` (transient-array reconciler): guard stale
notifications, then update streaming messages / tool counters / terminal
state; returns the handled state string (or `none` for the guard path). -/
def handleChatEvent (state : ChatState) (payload : Option ChatEventPayload) (now : Nat) :
    ChatState × Option String :=
  match payload with
  | none => (state, none)
  | some p =>
    if p.sessionKey ≠ state.sessionKey then (state, none)
    else if strTruthy p.runId = true ∧ optStrTruthy state.chatRunId = true ∧
        state.chatRunId ≠ some p.runId then (state, none)
    else if p.state = "delta" then
      match p.messageText with
      | some text =>
        let mi := p.messageIndex.getD 0
        match state.chatStreamMessages.find? (fun m => m.index == mi) with
        | some _ =>
            ({ state with chatStreamMessages := updateFirstText state.chatStreamMessages mi text },
              some "delta")
        | none =>
            ({ state with
                chatStreamMessages :=
                  sortByIndex (state.chatStreamMessages ++ [⟨mi, text, now⟩]) },
              some "delta")
      | none => (state, some "delta")
    else if p.state = "tool-start" then
      ({ state with
          chatToolsRunning := state.chatToolsRunning + 1,
          chatCurrentTool := p.toolName }, some "tool-start")
    else if p.state = "tool-end" then
      let n := state.chatToolsRunning - 1
      ({ state with
          chatToolsRunning := n,
          chatCurrentTool := if n = 0 then none else state.chatCurrentTool }, some "tool-end")
    else if p.state = "final" then
      ({ state with
          chatStreamMessages := [],
          chatRunId := none,
          chatToolsRunning := 0,
          chatCurrentTool := none }, some "final")
    else if p.state = "aborted" then
      ({ state with
          chatStreamMessages := [],
          chatRunId := none,
          chatToolsRunning := 0,
          chatCurrentTool := none }, some "aborted")
    else if p.state = "error" then
      ({ state with
          chatStreamMessages := [],
          chatRunId := none,
          chatToolsRunning := 0,
          chatCurrentTool := none,
          lastError := some (p.errorMessage.getD "chat error") }, some "error")
    else (state, some p.state)

/-! ## Tool card pairer -/

/-- `ToolCard = { kind, id?, name, text? }`.  Modelled from the spec (§3):
the type itself is declared in a chat-types module outside this
subsystem; the pairer reads exactly these four fields. -/
structure ToolCard where
  kind : String
  id : Option String
  name : String
  text : Option String
deriving DecidableEq

/-- The collection loop: cards of each message, in order, split into
call cards and result cards. -/
def collectCards (cardLists : List (List ToolCard)) : List ToolCard × List ToolCard :=
  cardLists.flatten.foldl
    (fun acc card =>
      if card.kind = "call" then (acc.1 ++ [card], acc.2) else (acc.1, acc.2 ++ [card]))
    ([], [])

/-- JS `results.findIndex((r, i) => !used.has(i) && p(r))`, returning the
index together with the found card. -/
def findMatch (results : List ToolCard) (used : List Nat) (p : ToolCard → Bool) :
    Option (Nat × ToolCard) :=
  results.enum.find? (fun ir => !used.contains ir.1 && p ir.2)

/-- One iteration of the pairing loop for a single call card. -/
def pairStep (resultCards : List ToolCard) (acc : List ToolCard × List Nat)
    (call : ToolCard) : List ToolCard × List Nat :=
  let idMatch : Option (Nat × ToolCard) :=
    match call.id with
    | some cid =>
        if strTruthy cid then findMatch resultCards acc.2 (fun r => r.id == some cid) else none
    | none => none
  let found : Option (Nat × ToolCard) :=
    match idMatch with
    | some ir => some ir
    | none => findMatch resultCards acc.2 (fun r => r.name == call.name)
  match found with
  | some ir => (acc.1 ++ [{ call with text := ir.2.text }], acc.2 ++ [ir.1])
  | none => (acc.1 ++ [call], acc.2)

def pairCalls (callCards resultCards : List ToolCard) : List ToolCard × List Nat :=
  callCards.foldl (pairStep resultCards) ([], [])

/-- Orphan results: every result whose index was never consumed, emitted
standalone in order. -/
def orphanResults (resultCards : List ToolCard) (used : List Nat) : List ToolCard :=
  (resultCards.enum.filter (fun ir => !used.contains ir.1)).map (fun ir => ir.2)

/-- `collectAndPairToolCards`, taking per-message extraction results
(`messages.map(extractToolCards)`, extraction itself being external). -/
def collectAndPairToolCards (cardLists : List (List ToolCard)) : List ToolCard :=
  let cr := collectCards cardLists
  let pu := pairCalls cr.1 cr.2
  pu.1 ++ orphanResults cr.2 pu.2

/-! ## Concrete fixtures for witnesses and counterexamples -/

/-- An environment whose collateral resolver always answers session "s1",
with verbosity on and identity error formatting. -/
def cEnv : Env := ⟨fun _ => some "s1", fun _ _ => true, id⟩

def emptyRouterState : RouterState := ⟨[], [], [], []⟩

/-- Aborted run with a RunLink "runI" → (s1, clientC) and a stale
message-index entry recorded under the internal run id. -/
def c3st : RouterState :=
  ⟨[("runI", [⟨"s1", "clientC"⟩])], [("clientC", 1), ("runI", 2)], [("clientC", 5)], [("runI", 3)]⟩

def c3evt : AgentEvent := ⟨"runI", 4, "lifecycle", some "error", none, none, none⟩

/-! ## Association-map lemmas -/

theorem amGet_amSet_self {α : Type} (m : AMap α) (k : String) (v : α) :
    amGet (amSet m k v) k = some v := by
  induction m with
  | nil => simp [amSet, amGet]
  | cons p rest ih =>
    obtain ⟨k', v'⟩ := p
    by_cases h : k' = k
    · simp [amSet, amGet, h]
    · simp [amSet, amGet, h, ih]

theorem amGet_amSet_ne {α : Type} (m : AMap α) (k k' : String) (v : α) (h : k' ≠ k) :
    amGet (amSet m k v) k' = amGet m k' := by
  induction m with
  | nil => simp [amSet, amGet, Ne.symm h]
  | cons p rest ih =>
    obtain ⟨k0, v0⟩ := p
    by_cases h0 : k0 = k
    · subst h0
      simp [amSet, amGet, Ne.symm h]
    · simp [amSet, amGet, h0, ih]

theorem amSet_amSet {α : Type} (m : AMap α) (k : String) (v w : α) :
    amSet (amSet m k v) k w = amSet m k w := by
  induction m with
  | nil => simp [amSet]
  | cons p rest ih =>
    obtain ⟨k0, v0⟩ := p
    by_cases h0 : k0 = k
    · simp [amSet, h0]
    · simp [amSet, h0, ih]

theorem amGet_amDel_self {α : Type} (m : AMap α) (k : String) :
    amGet (amDel m k) k = none := by
  induction m with
  | nil => simp [amDel, amGet]
  | cons p rest ih =>
    obtain ⟨k0, v0⟩ := p
    by_cases h0 : k0 = k
    · simp [amDel, h0, ih]
    · simp [amDel, amGet, h0, ih]

theorem amGet_amDel_ne {α : Type} (m : AMap α) (k k' : String) (h : k' ≠ k) :
    amGet (amDel m k) k' = amGet m k' := by
  induction m with
  | nil => simp [amDel]
  | cons p rest ih =>
    obtain ⟨k0, v0⟩ := p
    by_cases h0 : k0 = k
    · subst h0
      simp [amDel, amGet, Ne.symm h, ih]
    · simp [amDel, amGet, h0, ih]

/-! ## Session-branch lemmas -/

theorem sb_ems_char (env : Env) (now : Nat) (st2 : RouterState) (evt : AgentEvent)
    (sk : String) (cl : Option ChatRunEntry) (cr : String) (ab : Bool) :
    ∀ em ∈ (sessionBranch env now st2 evt sk cl cr ab).2.1,
      isGapEm em = false ∧ em.dropIfSlow = (isDeltaEm em && em.target.isNone) ∧
        (isChatEm em = true → ab = false) := by
  intro em hm
  unfold sessionBranch at hm
  simp only [] at hm
  repeat' split at hm
  all_goals
    simp_all [emitChatDelta, emitToolEvent, emitChatFinal, List.mem_append, List.mem_cons,
      isGapEm, isDeltaEm, isChatEm]
  all_goals (rcases hm with h | h <;> subst h <;> simp)

theorem sb_agentRunSeq (env : Env) (now : Nat) (st2 : RouterState) (evt : AgentEvent)
    (sk : String) (cl : Option ChatRunEntry) (cr : String) (ab : Bool) :
    (sessionBranch env now st2 evt sk cl cr ab).1.agentRunSeq = st2.agentRunSeq := by
  unfold sessionBranch
  simp only []
  repeat' split
  all_goals simp [emitChatDelta, emitToolEvent, emitChatFinal]
  all_goals repeat' split
  all_goals simp

theorem sb_frame_nonlifecycle (env : Env) (now : Nat) (st2 : RouterState) (evt : AgentEvent)
    (sk : String) (cl : Option ChatRunEntry) (cr : String) (ab : Bool)
    (h : evt.stream ≠ "lifecycle") :
    (sessionBranch env now st2 evt sk cl cr ab).1.registry = st2.registry ∧
      (sessionBranch env now st2 evt sk cl cr ab).1.abortedRuns = st2.abortedRuns := by
  unfold sessionBranch
  simp only [lifecyclePhaseOf, if_neg h]
  repeat' split
  all_goals simp_all [emitChatDelta, emitToolEvent, emitChatFinal]
  all_goals repeat' split
  all_goals simp_all

theorem sb_mi_assistant (env : Env) (now : Nat) (st2 : RouterState) (evt : AgentEvent)
    (sk : String) (cl : Option ChatRunEntry) (cr : String) (ab : Bool)
    (h : evt.stream = "assistant") :
    ∀ k, (amGet (sessionBranch env now st2 evt sk cl cr ab).1.messageIndexByRun k).getD 0 =
      (amGet st2.messageIndexByRun k).getD 0 := by
  intro k
  unfold sessionBranch
  have hlp : lifecyclePhaseOf evt = none := by
    unfold lifecyclePhaseOf
    rw [if_neg]
    simp [h]
  simp only [hlp]
  repeat' split
  all_goals simp_all [emitChatDelta, emitToolEvent, emitChatFinal]
  all_goals repeat' split
  all_goals simp_all [amHas]
  · rename_i hcr hnone
    by_cases hk : cr = k
    · subst hk
      rw [amGet_amSet_self]
      simp [hnone]
    · rw [amGet_amSet_ne _ _ _ _ (fun hh => hk hh.symm)]

theorem sb_mi_toolstart (env : Env) (now : Nat) (st2 : RouterState) (evt : AgentEvent)
    (sk : String) (cl : Option ChatRunEntry) (cr : String)
    (hs : evt.stream = "tool") (hp : evt.dataPhase = some "start")
    (hn : evt.dataName.isSome = true) :
    amGet (sessionBranch env now st2 evt sk cl cr false).1.messageIndexByRun cr =
      some ((amGet st2.messageIndexByRun cr).getD 0 + 1) ∧
    ∀ k, k ≠ cr → amGet (sessionBranch env now st2 evt sk cl cr false).1.messageIndexByRun k =
      amGet st2.messageIndexByRun k := by
  unfold sessionBranch
  have hlp : lifecyclePhaseOf evt = none := by
    unfold lifecyclePhaseOf
    rw [if_neg]
    simp [hs]
  simp only [hlp, hs, hp, hn]
  simp [emitToolEvent]
  constructor
  · rw [amGet_amSet_self]
  · intro k hk
    rw [amGet_amSet_ne _ _ _ _ hk]

theorem sb_mi_tool_other (env : Env) (now : Nat) (st2 : RouterState) (evt : AgentEvent)
    (sk : String) (cl : Option ChatRunEntry) (cr : String) (ab : Bool)
    (hs : evt.stream = "tool")
    (hno : ¬(evt.dataPhase = some "start" ∧ evt.dataName.isSome = true)) :
    (sessionBranch env now st2 evt sk cl cr ab).1.messageIndexByRun =
      st2.messageIndexByRun := by
  unfold sessionBranch
  have hlp : lifecyclePhaseOf evt = none := by
    unfold lifecyclePhaseOf
    rw [if_neg]
    simp [hs]
  simp only [hlp]
  repeat' split
  all_goals simp_all [emitChatDelta, emitToolEvent, emitChatFinal]

theorem sb_aborted_out (env : Env) (now : Nat) (st2 : RouterState) (evt : AgentEvent)
    (sk : String) (cl : Option ChatRunEntry) (cr : String) :
    (sessionBranch env now st2 evt sk cl cr true).2.1 = [] ∧
      (sessionBranch env now st2 evt sk cl cr true).2.2 = false := by
  unfold sessionBranch
  simp only [Bool.true_eq_false, false_and, if_false]
  repeat' split
  all_goals simp_all

theorem sb_terminal_aborted_state (env : Env) (now : Nat) (st2 : RouterState)
    (evt : AgentEvent) (sk : String) (cl : Option ChatRunEntry) (cr : String)
    (hterm : lifecyclePhaseOf evt = some "end" ∨ lifecyclePhaseOf evt = some "error") :
    (sessionBranch env now st2 evt sk cl cr true).1 =
      { st2 with
          abortedRuns := amDel (amDel st2.abortedRuns cr) evt.runId,
          messageIndexByRun := amDel st2.messageIndexByRun cr,
          registry :=
            match cl with
            | some _ => (registryRemove
                { st2 with
                    abortedRuns := amDel (amDel st2.abortedRuns cr) evt.runId,
                    messageIndexByRun := amDel st2.messageIndexByRun cr }.registry
                evt.runId cr (some sk)).1
            | none => st2.registry } := by
  have hlife : evt.stream = "lifecycle" := by
    unfold lifecyclePhaseOf at hterm
    by_cases h : evt.stream = "lifecycle"
    · exact h
    · rw [if_neg h] at hterm
      rcases hterm with h1 | h1 <;> exact absurd h1 (by simp)
  unfold sessionBranch
  repeat' split
  all_goals simp_all

theorem registryPeek_cons (m : AMap (List ChatRunEntry)) (sid : String)
    (l : ChatRunEntry) (h : registryPeek m sid = some l) :
    ∃ rest, amGet m sid = some (l :: rest) := by
  unfold registryPeek at h
  rcases hq : amGet m sid with _ | q
  · rw [hq] at h
    simp at h
  · rw [hq] at h
    rcases q with _ | ⟨e, rest⟩
    · simp at h
    · simp at h
      subst h
      exact ⟨rest, rfl⟩

theorem registryShift_of_peek (m : AMap (List ChatRunEntry)) (sid : String)
    (l : ChatRunEntry) (h : registryPeek m sid = some l) :
    (registryShift m sid).2 = some l := by
  obtain ⟨rest, hq⟩ := registryPeek_cons m sid l h
  unfold registryShift
  rw [hq]

theorem sb_delta_out (env : Env) (now : Nat) (st2 : RouterState) (evt : AgentEvent)
    (sk : String) (cl : Option ChatRunEntry) (cr : String) (t : String)
    (hs : evt.stream = "assistant") (ht : evt.dataText = some t) :
    (sessionBranch env now st2 evt sk cl cr false).2.1 =
      [⟨"chat", OutPayload.chatDelta cr sk evt.seq
          ((amGet st2.messageIndexByRun cr).getD 0) t now, true, none⟩,
       ⟨"chat", OutPayload.chatDelta cr sk evt.seq
          ((amGet st2.messageIndexByRun cr).getD 0) t now, false, some sk⟩] := by
  unfold sessionBranch
  simp [hs, ht, emitChatDelta]

theorem sb_terminal_notaborted (env : Env) (now : Nat) (st2 : RouterState)
    (evt : AgentEvent) (sk : String) (cl : Option ChatRunEntry) (cr : String)
    (hterm : lifecyclePhaseOf evt = some "end" ∨ lifecyclePhaseOf evt = some "error")
    (hcl : match cl with
      | some l => registryPeek st2.registry evt.runId = some l ∧ cr = l.clientRunId
      | none => cr = evt.runId) :
    amGet (sessionBranch env now st2 evt sk cl cr false).1.messageIndexByRun cr = none ∧
      (sessionBranch env now st2 evt sk cl cr false).1.abortedRuns = st2.abortedRuns := by
  have hlife : evt.stream = "lifecycle" := by
    unfold lifecyclePhaseOf at hterm
    by_cases h : evt.stream = "lifecycle"
    · exact h
    · rw [if_neg h] at hterm
      rcases hterm with h1 | h1 <;> exact absurd h1 (by simp)
  have hsA : ¬(evt.stream = "assistant") := by simp [hlife]
  have hsB : ¬(evt.stream = "tool") := by simp [hlife]
  unfold sessionBranch
  rcases cl with _ | l
  · simp only [hsA, hsB, false_and, and_false, if_false, hterm]
    subst hcl
    simp [hterm, emitChatFinal]
    constructor
    · split
      · exact amGet_amDel_self _ _
      · exact amGet_amDel_self _ _
    · split <;> rfl
  · obtain ⟨hpeek, hcr⟩ := hcl
    have hsh := registryShift_of_peek st2.registry evt.runId l hpeek
    simp only [hsA, hsB, false_and, and_false, if_false, hterm]
    simp [hterm, hsh, emitChatFinal, hcr]
    constructor
    · split
      · exact amGet_amDel_self _ _
      · exact amGet_amDel_self _ _
    · split <;> rfl

/-! ## Handler-level lemmas -/

theorem handle_agentRunSeq (env : Env) (now : Nat) (st : RouterState) (evt : AgentEvent) :
    amGet (handleAgentEvent env now st evt).1.agentRunSeq evt.runId = some evt.seq := by
  unfold handleAgentEvent
  simp only []
  rcases hsk : sessionKeyOf env st evt with _ | sk
  · simp only []
    exact amGet_amSet_self _ _ _
  · simp only []
    split
    · simp only []
      rw [sb_agentRunSeq]
      exact amGet_amSet_self _ _ _
    · exact amGet_amSet_self _ _ _

theorem handle_frame_nonlifecycle (env : Env) (now : Nat) (st : RouterState)
    (evt : AgentEvent) (h : evt.stream ≠ "lifecycle") :
    (handleAgentEvent env now st evt).1.registry = st.registry ∧
      (handleAgentEvent env now st evt).1.abortedRuns = st.abortedRuns := by
  unfold handleAgentEvent
  simp only []
  rcases hsk : sessionKeyOf env st evt with _ | sk
  · simp
  · simp only []
    split
    · exact sb_frame_nonlifecycle env now _ evt sk _ _ _ h
    · exact ⟨rfl, rfl⟩

theorem handle_mi_assistant (env : Env) (now : Nat) (st : RouterState)
    (evt : AgentEvent) (h : evt.stream = "assistant") :
    ∀ k, (amGet (handleAgentEvent env now st evt).1.messageIndexByRun k).getD 0 =
      (amGet st.messageIndexByRun k).getD 0 := by
  intro k
  unfold handleAgentEvent
  simp only []
  rcases hsk : sessionKeyOf env st evt with _ | sk
  · simp only []
  · simp only []
    split
    · exact sb_mi_assistant env now _ evt sk _ _ _ h k
    · rfl

theorem handle_mi_toolstart (env : Env) (now : Nat) (st : RouterState)
    (evt : AgentEvent) (sk : String)
    (hsk : sessionKeyOf env st evt = some sk)
    (hskt : strTruthy sk = true)
    (hab : isAbortedOf st evt = false)
    (hs : evt.stream = "tool") (hp : evt.dataPhase = some "start")
    (hn : evt.dataName.isSome = true) :
    amGet (handleAgentEvent env now st evt).1.messageIndexByRun (clientRunIdOf st evt) =
      some ((amGet st.messageIndexByRun (clientRunIdOf st evt)).getD 0 + 1) ∧
    ∀ k, k ≠ clientRunIdOf st evt →
      amGet (handleAgentEvent env now st evt).1.messageIndexByRun k =
        amGet st.messageIndexByRun k := by
  unfold handleAgentEvent
  simp only []
  rw [hsk]
  simp only []
  rw [if_pos hskt]
  simp only [hab]
  exact sb_mi_toolstart env now _ evt sk _ _ hs hp hn

theorem handle_mi_tool_other (env : Env) (now : Nat) (st : RouterState)
    (evt : AgentEvent) (hs : evt.stream = "tool")
    (hno : ¬(evt.dataPhase = some "start" ∧ evt.dataName.isSome = true)) :
    (handleAgentEvent env now st evt).1.messageIndexByRun = st.messageIndexByRun := by
  unfold handleAgentEvent
  simp only []
  rcases hsk : sessionKeyOf env st evt with _ | sk
  · simp only []
  · simp only []
    split
    · exact sb_mi_tool_other env now _ evt sk _ _ _ hs hno
    · rfl

/-- Every emission of the handler decomposes as the (possibly empty) gap
diagnostic prefix followed by gap-free emissions satisfying the
droppable-tag characterization and the aborted-suppression property. -/
theorem handle_out_decomp (env : Env) (now : Nat) (st : RouterState) (evt : AgentEvent) :
    ∃ rest, (handleAgentEvent env now st evt).2 =
      (if evt.seq ≠ (amGet st.agentRunSeq evt.runId).getD 0 + 1 then
        [⟨"agent", OutPayload.seqGap evt.runId (sessionKeyOf env st evt) now
            ((amGet st.agentRunSeq evt.runId).getD 0 + 1) evt.seq, false, none⟩]
       else []) ++ rest ∧
      ∀ em ∈ rest, isGapEm em = false ∧ em.dropIfSlow = (isDeltaEm em && em.target.isNone) ∧
        (isChatEm em = true → isAbortedOf st evt = false) := by
  unfold handleAgentEvent
  simp only []
  rcases hsk : sessionKeyOf env st evt with _ | sk
  · simp only [List.append_assoc]
    refine ⟨_, rfl, ?_⟩
    intro em hm
    rw [List.mem_append] at hm
    rcases hm with hm | hm
    · split at hm
      · simp at hm
      · simp at hm
        subst hm
        simp [isGapEm, isDeltaEm, isChatEm]
    · split at hm
      · simp at hm
        subst hm
        simp [isGapEm, isDeltaEm, isChatEm]
      · simp at hm
  · simp only []
    split
    · simp only [List.append_assoc]
      refine ⟨_, rfl, ?_⟩
      intro em hm
      rw [List.mem_append, List.mem_append, List.mem_append] at hm
      rcases hm with hm | hm | hm | hm
      · split at hm
        · simp at hm
        · simp at hm
          subst hm
          simp [isGapEm, isDeltaEm, isChatEm]
      · split at hm
        · simp at hm
        · simp at hm
          subst hm
          simp [isGapEm, isDeltaEm, isChatEm]
      · have hc := sb_ems_char env now _ evt sk _ _ _ em hm
        rcases hab : isAbortedOf st evt with _ | _
        · exact ⟨hc.1, hc.2.1, fun _ => rfl⟩
        · refine ⟨hc.1, hc.2.1, fun hchat => ?_⟩
          rw [hab] at hc
          exact absurd (hc.2.2 hchat) (by simp)
      · revert hm
        repeat' split
        all_goals intro hm
        all_goals simp_all [isGapEm, isDeltaEm, isChatEm]
    · simp only [List.append_assoc]
      refine ⟨_, rfl, ?_⟩
      intro em hm
      rw [List.mem_append] at hm
      rcases hm with hm | hm
      · split at hm
        · simp at hm
        · simp at hm
          subst hm
          simp [isGapEm, isDeltaEm, isChatEm]
      · split at hm
        · simp at hm
          subst hm
          simp [isGapEm, isDeltaEm, isChatEm]
        · simp at hm

/-- On a live assistant-text event, the handler's chat-channel output is
exactly the pair of delta emissions carrying the run's current message
index. -/
theorem handle_delta_out (env : Env) (now : Nat) (st : RouterState) (evt : AgentEvent)
    (sk t : String) (hsk : sessionKeyOf env st evt = some sk)
    (hskt : strTruthy sk = true)
    (hab : isAbortedOf st evt = false)
    (hs : evt.stream = "assistant") (ht : evt.dataText = some t) :
    ((handleAgentEvent env now st evt).2.filter isChatEm) =
      [⟨"chat", OutPayload.chatDelta (clientRunIdOf st evt) sk evt.seq
          ((amGet st.messageIndexByRun (clientRunIdOf st evt)).getD 0) t now, true, none⟩,
       ⟨"chat", OutPayload.chatDelta (clientRunIdOf st evt) sk evt.seq
          ((amGet st.messageIndexByRun (clientRunIdOf st evt)).getD 0) t now, false, some sk⟩] := by
  unfold handleAgentEvent
  simp only []
  rw [hsk]
  simp only []
  rw [if_pos hskt]
  simp only []
  rw [hab]
  rw [sb_delta_out env now _ evt sk _ _ t hs ht]
  have hlp : lifecyclePhaseOf evt = none := by
    unfold lifecyclePhaseOf
    rw [if_neg]
    simp [hs]
  simp [List.filter_append, isChatEm, hlp]
  repeat' split
  all_goals simp [isChatEm, List.filter]

/-- After a terminal lifecycle event whose session key resolves, no
message-index entry and no abort marker remain for the client run id. -/
theorem handle_terminal_cleanup (env : Env) (now : Nat) (st : RouterState)
    (evt : AgentEvent) (sk : String) (hsk : sessionKeyOf env st evt = some sk)
    (hskt : strTruthy sk = true)
    (hterm : lifecyclePhaseOf evt = some "end" ∨ lifecyclePhaseOf evt = some "error") :
    amGet (handleAgentEvent env now st evt).1.messageIndexByRun (clientRunIdOf st evt) = none ∧
      amGet (handleAgentEvent env now st evt).1.abortedRuns (clientRunIdOf st evt) = none := by
  unfold handleAgentEvent
  simp only []
  rw [hsk]
  simp only []
  rw [if_pos hskt]
  simp only []
  rcases hab : isAbortedOf st evt with _ | _
  · have hsb := sb_terminal_notaborted env now { st with agentRunSeq := amSet (if (decide (evt.stream = "tool") && !env.shouldEmitToolEvents evt.runId (some sk)) = true then amSet st.agentRunSeq evt.runId evt.seq else st.agentRunSeq) evt.runId evt.seq } evt sk (chatLinkOf st evt) (clientRunIdOf st evt) hterm ?_
    · refine ⟨hsb.1, ?_⟩
      rw [hsb.2]
      have hh : amHas st.abortedRuns (clientRunIdOf st evt) = false := by
        unfold isAbortedOf at hab
        exact (Bool.or_eq_false_iff.mp hab).1
      unfold amHas at hh
      simpa using hh
    · rcases hcl : chatLinkOf st evt with _ | l
      · unfold clientRunIdOf
        rw [hcl]
      · constructor
        · unfold chatLinkOf at hcl
          exact hcl
        · unfold clientRunIdOf
          rw [hcl]
  · rw [sb_terminal_aborted_state env now _ evt sk _ _ hterm]
    simp only []
    constructor
    · exact amGet_amDel_self _ _
    · by_cases hcr : clientRunIdOf st evt = evt.runId
      · rw [hcr, amGet_amDel_self]
      · rw [amGet_amDel_ne _ _ _ hcr, amGet_amDel_self]

/-! ## registryRemove lemmas -/

theorem findIdxFrom_first (p : ChatRunEntry → Bool) (pre : List ChatRunEntry)
    (e : ChatRunEntry) (post : List ChatRunEntry)
    (hpre : ∀ x ∈ pre, p x = false) (he : p e = true) :
    findIdxFrom p (pre ++ e :: post) = some pre.length := by
  induction pre with
  | nil => simp [findIdxFrom, he]
  | cons x rest ih =>
    have hx : p x = false := hpre x (by simp)
    rw [List.cons_append]
    rw [show findIdxFrom p (x :: (rest ++ e :: post)) =
        if p x = true then some 0 else (findIdxFrom p (rest ++ e :: post)).map (· + 1) from rfl]
    rw [hx, ih (fun y hy => hpre y (by simp [hy]))]
    simp

theorem eraseIdx_middle (pre : List ChatRunEntry) (e : ChatRunEntry)
    (post : List ChatRunEntry) :
    (pre ++ e :: post).eraseIdx pre.length = pre ++ post := by
  induction pre with
  | nil => simp [List.eraseIdx]
  | cons x rest ih => simp [List.eraseIdx, ih]

theorem getElem?_middle (pre : List ChatRunEntry) (e : ChatRunEntry)
    (post : List ChatRunEntry) :
    (pre ++ e :: post)[pre.length]? = some e := by
  induction pre with
  | nil => simp
  | cons x rest ih => simpa using ih

/-- `remove` takes out the first matching entry — head included — and
deletes the queue key once the queue empties. -/
theorem registryRemove_found (m : AMap (List ChatRunEntry)) (sid cid : String)
    (sk : Option String) (pre : List ChatRunEntry) (e : ChatRunEntry)
    (post : List ChatRunEntry) (hq : amGet m sid = some (pre ++ e :: post))
    (hpre : ∀ x ∈ pre, entryMatches cid sk x = false)
    (he : entryMatches cid sk e = true) :
    registryRemove m sid cid sk =
      ((if (pre ++ post).isEmpty then amDel m sid else amSet m sid (pre ++ post)), some e) := by
  unfold registryRemove
  rw [hq]
  simp only []
  have hne : (pre ++ e :: post).isEmpty = false := by
    rcases pre with _ | ⟨y, ys⟩ <;> simp
  rw [hne]
  simp only [Bool.false_eq_true, if_false]
  rw [findIdxFrom_first _ pre e post hpre he]
  simp only []
  rw [eraseIdx_middle, getElem?_middle]

/-- `remove` on a missing or empty queue, or with no matching entry,
returns `undefined` and leaves the map unchanged. -/
theorem registryRemove_nomatch (m : AMap (List ChatRunEntry)) (sid cid : String)
    (sk : Option String)
    (h : ∀ q, amGet m sid = some q → ∀ x ∈ q, entryMatches cid sk x = false) :
    registryRemove m sid cid sk = (m, none) := by
  unfold registryRemove
  rcases hq : amGet m sid with _ | q
  · rfl
  · have hall := h q hq
    have hfind : findIdxFrom (entryMatches cid sk) q = none := by
      clear hq
      induction q with
      | nil => rfl
      | cons x rest ih =>
        have hx := hall x (by simp)
        rw [show findIdxFrom (entryMatches cid sk) (x :: rest) =
            if entryMatches cid sk x = true then some 0
            else (findIdxFrom (entryMatches cid sk) rest).map (· + 1) from rfl]
        rw [hx, ih (fun y hy => hall y (by simp [hy]))]
        simp
    simp only []
    rw [hfind]
    split <;> rfl

/-! ## Aborted-run and gap lemmas at handler level -/

theorem handle_no_chat_aborted (env : Env) (now : Nat) (st : RouterState)
    (evt : AgentEvent) (hab : isAbortedOf st evt = true) :
    ∀ em ∈ (handleAgentEvent env now st evt).2, isChatEm em = false := by
  obtain ⟨rest, hout, hrest⟩ := handle_out_decomp env now st evt
  intro em hm
  rw [hout, List.mem_append] at hm
  rcases hm with hm | hm
  · split at hm
    · simp at hm
      subst hm
      simp [isChatEm]
    · simp at hm
  · have hc := hrest em hm
    rcases hch : isChatEm em with _ | _
    · rfl
    · exact absurd (hab ▸ hc.2.2 hch) (by simp)

theorem handle_aborted_terminal_state (env : Env) (now : Nat) (st : RouterState)
    (evt : AgentEvent) (sk : String) (hsk : sessionKeyOf env st evt = some sk)
    (hskt : strTruthy sk = true)
    (hab : isAbortedOf st evt = true)
    (hterm : lifecyclePhaseOf evt = some "end" ∨ lifecyclePhaseOf evt = some "error") :
    amGet (handleAgentEvent env now st evt).1.abortedRuns (clientRunIdOf st evt) = none ∧
    amGet (handleAgentEvent env now st evt).1.abortedRuns evt.runId = none ∧
    amGet (handleAgentEvent env now st evt).1.messageIndexByRun (clientRunIdOf st evt) = none ∧
    ((handleAgentEvent env now st evt).1.registry =
      match chatLinkOf st evt with
      | some _ => (registryRemove st.registry evt.runId (clientRunIdOf st evt) (some sk)).1
      | none => st.registry) := by
  unfold handleAgentEvent
  simp only []
  rw [hsk]
  simp only []
  rw [if_pos hskt]
  simp only []
  rw [hab]
  rw [sb_terminal_aborted_state env now _ evt sk _ _ hterm]
  simp only []
  refine ⟨?_, ?_, amGet_amDel_self _ _, ?_⟩
  · by_cases hcr : clientRunIdOf st evt = evt.runId
    · rw [hcr, amGet_amDel_self]
    · rw [amGet_amDel_ne _ _ _ hcr, amGet_amDel_self]
  · rw [amGet_amDel_self]
  · rcases chatLinkOf st evt with _ | l <;> trivial

/-- A gap never drops the event: the handler's result on a gapped state
is the gap diagnostic prepended to the result on the state whose counter
sits exactly one below the received seq, with identical final states. -/
theorem handle_gap_not_dropped (env : Env) (now : Nat) (st : RouterState)
    (evt : AgentEvent) (h1 : 1 ≤ evt.seq) :
    handleAgentEvent env now st evt =
      ((handleAgentEvent env now
          { st with agentRunSeq := amSet st.agentRunSeq evt.runId (evt.seq - 1) } evt).1,
        (if evt.seq ≠ (amGet st.agentRunSeq evt.runId).getD 0 + 1 then
          [⟨"agent", OutPayload.seqGap evt.runId (sessionKeyOf env st evt) now
              ((amGet st.agentRunSeq evt.runId).getD 0 + 1) evt.seq, false, none⟩]
         else []) ++
        (handleAgentEvent env now
          { st with agentRunSeq := amSet st.agentRunSeq evt.runId (evt.seq - 1) } evt).2) := by
  have hpred : evt.seq - 1 + 1 = evt.seq := Nat.succ_pred_eq_of_pos h1
  unfold handleAgentEvent
  simp only []
  rw [show sessionKeyOf env { st with agentRunSeq := amSet st.agentRunSeq evt.runId (evt.seq - 1) } evt = sessionKeyOf env st evt from rfl]
  rw [show chatLinkOf { st with agentRunSeq := amSet st.agentRunSeq evt.runId (evt.seq - 1) } evt = chatLinkOf st evt from rfl]
  rw [show clientRunIdOf { st with agentRunSeq := amSet st.agentRunSeq evt.runId (evt.seq - 1) } evt = clientRunIdOf st evt from rfl]
  rw [show isAbortedOf { st with agentRunSeq := amSet st.agentRunSeq evt.runId (evt.seq - 1) } evt = isAbortedOf st evt from rfl]
  rw [amGet_amSet_self, amSet_amSet]
  simp only [Option.getD_some, hpred]
  rcases hsk : sessionKeyOf env st evt with _ | sk
  · simp only []
    by_cases hskip : (decide (evt.stream = "tool") && !env.shouldEmitToolEvents evt.runId none) = true
    · simp only [hskip, if_pos, amSet_amSet]
      simp
    · simp only [hskip, if_neg, Bool.false_eq_true]
      simp [amSet_amSet]
  · simp only []
    by_cases hskt : strTruthy sk = true
    · simp only [if_pos hskt]
      by_cases hskip : (decide (evt.stream = "tool") && !env.shouldEmitToolEvents evt.runId (some sk)) = true
      · simp only [hskip, if_pos, amSet_amSet]
        simp [List.append_assoc]
      · simp only [hskip, if_neg, Bool.false_eq_true]
        simp [List.append_assoc, amSet_amSet]
    · simp only [if_neg hskt]
      by_cases hskip : (decide (evt.stream = "tool") && !env.shouldEmitToolEvents evt.runId (some sk)) = true
      · simp only [hskip, if_pos, amSet_amSet]
        simp
      · simp only [hskip, if_neg, Bool.false_eq_true]
        simp [amSet_amSet]

/-! ## Trace lemmas -/

theorem sessionKeyOf_run (env : Env) (st : RouterState) (evt : AgentEvent) (r : String)
    (h : evt.runId = r) : sessionKeyOf env st evt = runSessionKey env st r := by
  unfold sessionKeyOf runSessionKey chatLinkOf
  rw [h]

theorem clientRunIdOf_run (st : RouterState) (evt : AgentEvent) (r : String)
    (h : evt.runId = r) : clientRunIdOf st evt = runClientId st r := by
  unfold clientRunIdOf runClientId chatLinkOf
  rw [h]

theorem runSessionKey_congr (env : Env) (st su : RouterState) (r : String)
    (h : st.registry = su.registry) : runSessionKey env st r = runSessionKey env su r := by
  unfold runSessionKey registryPeek
  rw [h]

theorem runClientId_congr (st su : RouterState) (r : String)
    (h : st.registry = su.registry) : runClientId st r = runClientId su r := by
  unfold runClientId registryPeek
  rw [h]

theorem isAbortedOf_run (st : RouterState) (evt : AgentEvent) (r : String)
    (h : evt.runId = r) :
    isAbortedOf st evt =
      (amHas st.abortedRuns (runClientId st r) || amHas st.abortedRuns r) := by
  unfold isAbortedOf
  rw [clientRunIdOf_run st evt r h, h]

/-- Processing a trace of assistant/tool events for one run leaves the
registry and abort map untouched and advances the run's message-index
counter by exactly the number of tool-start events. -/
theorem trace_mi (env : Env) (now : Nat) (r : String) (sk : String)
    (hskt : strTruthy sk = true) :
    ∀ (trace : List AgentEvent) (st : RouterState),
      (∀ e ∈ trace, e.runId = r ∧ (e.stream = "assistant" ∨ e.stream = "tool") ∧
        (e.stream = "tool" → e.dataName.isSome = true)) →
      runSessionKey env st r = some sk →
      amHas st.abortedRuns (runClientId st r) = false →
      amHas st.abortedRuns r = false →
      (processEvents env now st trace).1.registry = st.registry ∧
      (processEvents env now st trace).1.abortedRuns = st.abortedRuns ∧
      (amGet (processEvents env now st trace).1.messageIndexByRun (runClientId st r)).getD 0 =
        (amGet st.messageIndexByRun (runClientId st r)).getD 0 + countToolStarts trace := by
  intro trace
  induction trace with
  | nil =>
    intro st htr hsk hab1 hab2
    simp [processEvents, countToolStarts]
  | cons e rest ih =>
    intro st htr hsk hab1 hab2
    obtain ⟨her, hstream, hname⟩ := htr e (by simp)
    have hnl : e.stream ≠ "lifecycle" := by
      rcases hstream with h | h <;> simp [h]
    have hframe := handle_frame_nonlifecycle env now st e hnl
    have hreg1 : (handleAgentEvent env now st e).1.registry = st.registry := hframe.1
    have habo1 : (handleAgentEvent env now st e).1.abortedRuns = st.abortedRuns := hframe.2
    have hsk1 : runSessionKey env (handleAgentEvent env now st e).1 r = some sk := by
      rw [runSessionKey_congr env _ st r hreg1]
      exact hsk
    have hcr1 : runClientId (handleAgentEvent env now st e).1 r = runClientId st r :=
      runClientId_congr _ st r hreg1
    have hab1' : amHas (handleAgentEvent env now st e).1.abortedRuns
        (runClientId (handleAgentEvent env now st e).1 r) = false := by
      rw [habo1, hcr1]
      exact hab1
    have hab2' : amHas (handleAgentEvent env now st e).1.abortedRuns r = false := by
      rw [habo1]
      exact hab2
    have htr' : ∀ x ∈ rest, x.runId = r ∧ (x.stream = "assistant" ∨ x.stream = "tool") ∧
        (x.stream = "tool" → x.dataName.isSome = true) :=
      fun x hx => htr x (by simp [hx])
    obtain ⟨ihreg, ihabo, ihmi⟩ := ih (handleAgentEvent env now st e).1 htr' hsk1 hab1' hab2'
    have hproc : processEvents env now st (e :: rest) =
        ((processEvents env now (handleAgentEvent env now st e).1 rest).1,
          (handleAgentEvent env now st e).2 ++
            (processEvents env now (handleAgentEvent env now st e).1 rest).2) := rfl
    rw [hproc]
    simp only []
    refine ⟨by rw [ihreg, hreg1], by rw [ihabo, habo1], ?_⟩
    rw [hcr1] at ihmi
    rw [ihmi]
    have hcount : countToolStarts (e :: rest) =
        (if isToolStartEvt e then 1 else 0) + countToolStarts rest := by
      unfold countToolStarts
      rw [List.countP_cons]
      rcases h : isToolStartEvt e <;> simp [h] <;> omega
    rw [hcount]
    rcases hstream with hA | hT
    · have hts : isToolStartEvt e = false := by
        unfold isToolStartEvt
        simp [hA]
      rw [hts]
      simp only [if_false, Bool.false_eq_true]
      rw [handle_mi_assistant env now st e hA (runClientId st r)]
      omega
    · by_cases hstart : e.dataPhase = some "start"
      · have hts : isToolStartEvt e = true := by
          unfold isToolStartEvt
          simp [hT, hstart]
        rw [hts]
        have hskE : sessionKeyOf env st e = some sk := by
          rw [sessionKeyOf_run env st e r her]
          exact hsk
        have habE : isAbortedOf st e = false := by
          rw [isAbortedOf_run st e r her, hab1, hab2]
          rfl
        have hmi := (handle_mi_toolstart env now st e sk hskE hskt habE hT hstart (hname hT)).1
        rw [clientRunIdOf_run st e r her] at hmi
        rw [hmi]
        simp
        omega
      · have hts : isToolStartEvt e = false := by
          unfold isToolStartEvt
          simp [hstart]
        rw [hts]
        simp only [if_false, Bool.false_eq_true]
        have hmi := handle_mi_tool_other env now st e hT
          (fun hc => hstart hc.1)
        rw [hmi]
        omega

theorem handle_nogap_out (env : Env) (now : Nat) (st : RouterState) (evt : AgentEvent)
    (h : evt.seq = (amGet st.agentRunSeq evt.runId).getD 0 + 1) :
    ∀ em ∈ (handleAgentEvent env now st evt).2, isGapEm em = false := by
  obtain ⟨rest, hout, hrest⟩ := handle_out_decomp env now st evt
  intro em hm
  rw [hout] at hm
  rw [if_neg (by simp [h])] at hm
  rw [List.nil_append] at hm
  exact (hrest em hm).1

/-- Over a trace of consecutive per-run seqs starting one above the
recorded counter, the router emits no gap diagnostic. -/
theorem trace_nogap (env : Env) (now : Nat) (r : String) :
    ∀ (trace : List AgentEvent) (st : RouterState) (k : Nat),
      (∀ e ∈ trace, e.runId = r) →
      trace.map (fun e => e.seq) = List.range' (k + 1) trace.length →
      (amGet st.agentRunSeq r).getD 0 = k →
      ∀ em ∈ (processEvents env now st trace).2, isGapEm em = false := by
  intro trace
  induction trace with
  | nil =>
    intro st k htr hseq hk em hm
    simp [processEvents] at hm
  | cons e rest ih =>
    intro st k htr hseq hk em hm
    have her : e.runId = r := htr e (by simp)
    have hlen : (e :: rest).length = rest.length + 1 := rfl
    rw [hlen, List.range'_succ] at hseq
    simp only [List.map_cons, List.cons.injEq] at hseq
    obtain ⟨hseqe, hseqr⟩ := hseq
    have hproc : processEvents env now st (e :: rest) =
        ((processEvents env now (handleAgentEvent env now st e).1 rest).1,
          (handleAgentEvent env now st e).2 ++
            (processEvents env now (handleAgentEvent env now st e).1 rest).2) := rfl
    rw [hproc] at hm
    simp only [List.mem_append] at hm
    rcases hm with hm | hm
    · refine handle_nogap_out env now st e ?_ em hm
      rw [her, hk, hseqe]
    · refine ih (handleAgentEvent env now st e).1 (k + 1)
        (fun x hx => htr x (by simp [hx])) hseqr ?_ em hm
      have := handle_agentRunSeq env now st e
      rw [her] at this
      rw [this]
      simp [hseqe]

/-! ## Reconciler lemmas -/

theorem updateFirstText_indexes (l : List StreamingMessage) (mi : Nat) (t : String) :
    (updateFirstText l mi t).map (fun m => m.index) = l.map (fun m => m.index) := by
  induction l with
  | nil => rfl
  | cons m rest ih =>
    unfold updateFirstText
    split
    · simp
    · simp [ih]

theorem updateFirstText_idem (l : List StreamingMessage) (mi : Nat) (t : String) :
    updateFirstText (updateFirstText l mi t) mi t = updateFirstText l mi t := by
  induction l with
  | nil => rfl
  | cons m rest ih =>
    by_cases h : m.index = mi
    · have hstep : updateFirstText (m :: rest) mi t = { m with text := t } :: rest := by
        unfold updateFirstText
        rw [if_pos h]
      rw [hstep]
      unfold updateFirstText
      simp [h]
    · have hstep : updateFirstText (m :: rest) mi t = m :: updateFirstText rest mi t := by
        conv_lhs => rw [updateFirstText]
        rw [if_neg h]
      rw [hstep]
      have hstep2 : updateFirstText (m :: updateFirstText rest mi t) mi t =
          m :: updateFirstText (updateFirstText rest mi t) mi t := by
        conv_lhs => rw [updateFirstText]
        rw [if_neg h]
      rw [hstep2, ih]

theorem updateFirstText_eq_self (l : List StreamingMessage) (mi : Nat) (t : String)
    (h : ∀ x ∈ l, x.index = mi → x.text = t) : updateFirstText l mi t = l := by
  induction l with
  | nil => rfl
  | cons m rest ih =>
    unfold updateFirstText
    split
    · rename_i hm
      have := h m (by simp) hm
      have hm2 : { m with text := t } = m := by
        cases m
        simp_all
      rw [hm2]
    · rw [ih (fun x hx hxi => h x (by simp [hx]) hxi)]

theorem mem_insertByIndex (m x : StreamingMessage) (l : List StreamingMessage) :
    x ∈ insertByIndex m l ↔ x = m ∨ x ∈ l := by
  induction l with
  | nil => simp [insertByIndex, eq_comm]
  | cons y rest ih =>
    unfold insertByIndex
    split
    · simp [ih]
      try tauto
    · simp [eq_comm]
      try tauto

theorem mem_sortByIndex (x : StreamingMessage) (l : List StreamingMessage) :
    x ∈ sortByIndex l ↔ x ∈ l := by
  induction l with
  | nil => simp [sortByIndex]
  | cons y rest ih =>
    unfold sortByIndex
    simp only [List.foldr_cons]
    rw [mem_insertByIndex]
    unfold sortByIndex at ih
    rw [ih]
    simp

/-! ## Pairer lemmas -/

theorem pairStep_len (results : List ToolCard) (acc : List ToolCard × List Nat)
    (c : ToolCard) : (pairStep results acc c).1.length = acc.1.length + 1 := by
  unfold pairStep
  simp only []
  repeat' split
  all_goals simp

theorem pairCalls_len_aux (results : List ToolCard) :
    ∀ (calls : List ToolCard) (acc : List ToolCard × List Nat),
      (calls.foldl (pairStep results) acc).1.length = acc.1.length + calls.length := by
  intro calls
  induction calls with
  | nil => simp
  | cons c rest ih =>
    intro acc
    simp only [List.foldl_cons]
    rw [ih (pairStep results acc c), pairStep_len]
    simp only [List.length_cons]
    omega

theorem pairCalls_length (calls results : List ToolCard) :
    (pairCalls calls results).1.length = calls.length := by
  unfold pairCalls
  rw [pairCalls_len_aux results calls ([], [])]
  simp

theorem orphanResults_mem (results : List ToolCard) (used : List Nat) (i : Nat)
    (r : ToolCard) (hr : results[i]? = some r) (hi : ¬ i ∈ used) :
    r ∈ orphanResults results used := by
  unfold orphanResults
  refine List.mem_map.mpr ⟨(i, r), ?_, rfl⟩
  rw [List.mem_filter]
  constructor
  · rw [List.mk_mem_enum_iff_getElem?]
    exact hr
  · simp [hi]

theorem orphanResults_nil_used (results : List ToolCard) :
    orphanResults results [] = results := by
  unfold orphanResults
  simp [List.enum_map_snd]

theorem findMatch_isNone (results : List ToolCard) (used : List Nat) (p : ToolCard → Bool)
    (h : ∀ r ∈ results, p r = false) : findMatch results used p = none := by
  unfold findMatch
  rw [List.find?_eq_none]
  rintro ⟨i, r⟩ hir
  have hr : r ∈ results := by
    have hg := List.mk_mem_enum_iff_getElem?.mp hir
    exact List.getElem?_mem hg
  simp [h r hr]

/-! ## Claim theorems -/

/-- Claim C2: on every incoming event, when seq differs from last+1 the
handler emits exactly one seq-gap diagnostic on the general channel with
expected = last+1 and received = seq (and none when seqs are
consecutive); the per-run counter is set to the received seq
unconditionally; and the event is not dropped — the handler's state and
remaining emissions are exactly those of the gap-free run whose counter
sits one below the received seq, with the diagnostic prepended. -/
theorem C2_seq_gap_diagnostic (env : Env) (now : Nat) (st : RouterState) (evt : AgentEvent) :
    ((evt.seq ≠ (amGet st.agentRunSeq evt.runId).getD 0 + 1 →
       (handleAgentEvent env now st evt).2.countP isGapEm = 1 ∧
       (⟨"agent", OutPayload.seqGap evt.runId (sessionKeyOf env st evt) now
           ((amGet st.agentRunSeq evt.runId).getD 0 + 1) evt.seq, false, none⟩ : Emission) ∈
         (handleAgentEvent env now st evt).2) ∧
     (evt.seq = (amGet st.agentRunSeq evt.runId).getD 0 + 1 →
       (handleAgentEvent env now st evt).2.countP isGapEm = 0)) ∧
    amGet (handleAgentEvent env now st evt).1.agentRunSeq evt.runId = some evt.seq ∧
    (1 ≤ evt.seq →
      handleAgentEvent env now st evt =
        ((handleAgentEvent env now
            { st with agentRunSeq := amSet st.agentRunSeq evt.runId (evt.seq - 1) } evt).1,
          (if evt.seq ≠ (amGet st.agentRunSeq evt.runId).getD 0 + 1 then
            [⟨"agent", OutPayload.seqGap evt.runId (sessionKeyOf env st evt) now
                ((amGet st.agentRunSeq evt.runId).getD 0 + 1) evt.seq, false, none⟩]
           else []) ++
          (handleAgentEvent env now
            { st with agentRunSeq := amSet st.agentRunSeq evt.runId (evt.seq - 1) } evt).2)) := by
  obtain ⟨rest, hout, hrest⟩ := handle_out_decomp env now st evt
  have hcrest : rest.countP isGapEm = 0 :=
    List.countP_eq_zero.mpr (fun em hm => by simp [(hrest em hm).1])
  refine ⟨⟨?_, ?_⟩, handle_agentRunSeq env now st evt, handle_gap_not_dropped env now st evt⟩
  · intro hgap
    rw [hout, if_pos hgap]
    constructor
    · rw [List.countP_append, hcrest]
      simp [isGapEm]
    · simp
  · intro hng
    rw [hout, if_neg (by simp [hng])]
    rw [List.nil_append]
    exact hcrest

/-- Claim C4: a terminal lifecycle event whose session key resolves
leaves no message-index entry and no abort marker for the client run
id, whether it emitted a final/error notification or performed
aborted-run cleanup. -/
theorem C4_terminal_cleanup (env : Env) (now : Nat) (st : RouterState)
    (evt : AgentEvent) (sk : String) (hsk : sessionKeyOf env st evt = some sk)
    (hskt : strTruthy sk = true)
    (hterm : lifecyclePhaseOf evt = some "end" ∨ lifecyclePhaseOf evt = some "error") :
    amGet (handleAgentEvent env now st evt).1.messageIndexByRun (clientRunIdOf st evt) = none ∧
      amGet (handleAgentEvent env now st evt).1.abortedRuns (clientRunIdOf st evt) = none :=
  handle_terminal_cleanup env now st evt sk hsk hskt hterm

theorem C4_witness :
    amGet (handleAgentEvent cEnv 0
        ⟨[("runI", [⟨"s1", "clientC"⟩])], [("clientC", 1)], [], [("runI", 3)]⟩
        ⟨"runI", 4, "lifecycle", some "end", none, none, none⟩).1.messageIndexByRun
      (clientRunIdOf ⟨[("runI", [⟨"s1", "clientC"⟩])], [("clientC", 1)], [], [("runI", 3)]⟩
        ⟨"runI", 4, "lifecycle", some "end", none, none, none⟩) = none ∧
    amGet (handleAgentEvent cEnv 0
        ⟨[("runI", [⟨"s1", "clientC"⟩])], [("clientC", 1)], [], [("runI", 3)]⟩
        ⟨"runI", 4, "lifecycle", some "end", none, none, none⟩).1.abortedRuns
      (clientRunIdOf ⟨[("runI", [⟨"s1", "clientC"⟩])], [("clientC", 1)], [], [("runI", 3)]⟩
        ⟨"runI", 4, "lifecycle", some "end", none, none, none⟩) = none :=
  C4_terminal_cleanup cEnv 0
    ⟨[("runI", [⟨"s1", "clientC"⟩])], [("clientC", 1)], [], [("runI", 3)]⟩
    ⟨"runI", 4, "lifecycle", some "end", none, none, none⟩ "s1" (by decide) (by decide)
    (by decide)

/-- Claim C7 counterexample: the seqs 1, 3 are strictly increasing and
start at 1, yet the router emits a gap diagnostic for the second event,
refuting the claim as stated (strict increase is not enough). -/
theorem C7_counterexample :
    ([⟨"r1", 1, "assistant", none, none, some "a", none⟩,
      ⟨"r1", 3, "assistant", none, none, some "b", none⟩] : List AgentEvent).map
        (fun e => e.seq) = [1, 3] ∧
    List.Chain' (fun a b => a < b) [1, 3] ∧ ([1, 3].head? = some 1) ∧
    (processEvents cEnv 0 emptyRouterState
      [⟨"r1", 1, "assistant", none, none, some "a", none⟩,
       ⟨"r1", 3, "assistant", none, none, some "b", none⟩]).2.countP isGapEm = 1 := by
  refine ⟨by decide, ?_, by decide, by decide⟩
  simp [List.chain'_cons]

/-- Claim C7 (amended): for every sequence of events for a given run
whose seq values are consecutive starting at 1 (each exactly one more
than the previous), no gap diagnostic is ever emitted. -/
theorem C7_amended_consecutive_no_gap (env : Env) (now : Nat) (r : String)
    (trace : List AgentEvent) (st0 : RouterState)
    (htr : ∀ e ∈ trace, e.runId = r)
    (hseq : trace.map (fun e => e.seq) = List.range' 1 trace.length)
    (h0 : amGet st0.agentRunSeq r = none) :
    ∀ em ∈ (processEvents env now st0 trace).2, isGapEm em = false := by
  refine trace_nogap env now r trace st0 0 htr ?_ ?_
  · simpa using hseq
  · rw [h0]
    rfl

theorem C7_witness :
    isGapEm ⟨"agent", OutPayload.agentEvt
      ⟨"r1", 1, "assistant", none, none, some "a", none⟩ (some "s1"), false, none⟩ = false :=
  C7_amended_consecutive_no_gap cEnv 0 "r1"
    [⟨"r1", 1, "assistant", none, none, some "a", none⟩,
     ⟨"r1", 2, "assistant", none, none, some "b", none⟩]
    emptyRouterState (by decide) (by decide) (by decide)
    ⟨"agent", OutPayload.agentEvt
      ⟨"r1", 1, "assistant", none, none, some "a", none⟩ (some "s1"), false, none⟩
    (by decide)

/-- Claim C8: an emission carries the drop-if-slow tag exactly when it is
the broadcast of a delta notification; tool, final and error
notifications (and all per-session sends) are never droppable. -/
theorem C8_droppable_only_deltas (env : Env) (now : Nat) (st : RouterState)
    (evt : AgentEvent) :
    ∀ em ∈ (handleAgentEvent env now st evt).2,
      em.dropIfSlow = (isDeltaEm em && em.target.isNone) := by
  obtain ⟨rest, hout, hrest⟩ := handle_out_decomp env now st evt
  intro em hm
  rw [hout, List.mem_append] at hm
  rcases hm with hm | hm
  · split at hm
    · simp at hm
      subst hm
      simp [isDeltaEm]
    · simp at hm
  · exact (hrest em hm).2.1

theorem C8_witness :
    (⟨"chat", OutPayload.chatDelta "r1" "s1" 1 0 "hi" 0, true, none⟩ : Emission).dropIfSlow =
      (isDeltaEm ⟨"chat", OutPayload.chatDelta "r1" "s1" 1 0 "hi" 0, true, none⟩ &&
        (⟨"chat", OutPayload.chatDelta "r1" "s1" 1 0 "hi" 0, true, none⟩ : Emission).target.isNone) :=
  C8_droppable_only_deltas cEnv 0 emptyRouterState
    ⟨"r1", 1, "assistant", none, none, some "hi", none⟩
    ⟨"chat", OutPayload.chatDelta "r1" "s1" 1 0 "hi" 0, true, none⟩ (by decide)

/-- Claim C9: a notification whose sessionKey differs from the local
session, or whose runId is present (truthy) and differs from the active
run id when one is active, makes handleChatEvent return null with the
ChatState completely unchanged. -/
theorem C9_stale_notification_ignored (s : ChatState) (p : ChatEventPayload) (now : Nat)
    (h : p.sessionKey ≠ s.sessionKey ∨
      (strTruthy p.runId = true ∧ optStrTruthy s.chatRunId = true ∧
        s.chatRunId ≠ some p.runId)) :
    handleChatEvent s (some p) now = (s, none) := by
  unfold handleChatEvent
  simp only []
  rcases h with h | h
  · rw [if_pos h]
  · by_cases h1 : p.sessionKey ≠ s.sessionKey
    · rw [if_pos h1]
    · rw [if_neg h1, if_pos h]

theorem C9_witness :
    handleChatEvent
      ⟨true, true, "s1", false, [], none, false, "", some "run1", [], 0, none, none⟩
      (some ⟨"run2", "s1", "delta", some 0, some "x", none, none⟩) 0 =
      (⟨true, true, "s1", false, [], none, false, "", some "run1", [], 0, none, none⟩, none) :=
  C9_stale_notification_ignored
    ⟨true, true, "s1", false, [], none, false, "", some "run1", [], 0, none, none⟩
    ⟨"run2", "s1", "delta", some 0, some "x", none, none⟩ 0 (Or.inr (by decide))

/-- Claim C10: remove takes out and returns the first entry matching the
client run id (and session key when supplied) — including when that
entry is the head — deletes the queue key entirely once the queue
empties, and returns undefined when nothing matches, leaving the map
unchanged. -/
theorem C10_registry_remove (m : AMap (List ChatRunEntry)) (sid cid : String)
    (sk : Option String) :
    (∀ pre e post, amGet m sid = some (pre ++ e :: post) →
      (∀ x ∈ pre, entryMatches cid sk x = false) → entryMatches cid sk e = true →
      registryRemove m sid cid sk =
        ((if (pre ++ post).isEmpty then amDel m sid else amSet m sid (pre ++ post)), some e)) ∧
    (∀ e rest, amGet m sid = some (e :: rest) → entryMatches cid sk e = true →
      registryRemove m sid cid sk =
        ((if rest.isEmpty then amDel m sid else amSet m sid rest), some e)) ∧
    ((∀ q, amGet m sid = some q → ∀ x ∈ q, entryMatches cid sk x = false) →
      registryRemove m sid cid sk = (m, none)) := by
  refine ⟨fun pre e post hq hpre he => registryRemove_found m sid cid sk pre e post hq hpre he,
    ?_, registryRemove_nomatch m sid cid sk⟩
  intro e rest hq he
  have h := registryRemove_found m sid cid sk [] e rest (by simpa using hq)
    (by simp) he
  simpa using h

theorem C10_witness :
    registryRemove [("ctx", [⟨"s1", "c1"⟩, ⟨"s1", "c2"⟩])] "ctx" "c1" (some "s1") =
      ([("ctx", [⟨"s1", "c2"⟩])], some ⟨"s1", "c1"⟩) := by
  have h := (C10_registry_remove [("ctx", [⟨"s1", "c1"⟩, ⟨"s1", "c2"⟩])] "ctx" "c1"
    (some "s1")).2.1 ⟨"s1", "c1"⟩ [⟨"s1", "c2"⟩] (by decide) (by decide)
  simpa using h

/-- Claim C1: for a live run whose session key resolves, after N
tool-start events the message index attached to every subsequently
emitted delta equals N, regardless of interleaved deltas; tool-start
increments the counter before emitting, and deltas leave it unchanged. -/
theorem C1_message_index_after_tool_starts (env : Env) (now : Nat) (st0 : RouterState)
    (r sk t : String) (trace : List AgentEvent) (e : AgentEvent)
    (hsk : runSessionKey env st0 r = some sk)
    (hskt : strTruthy sk = true)
    (hab1 : amHas st0.abortedRuns (runClientId st0 r) = false)
    (hab2 : amHas st0.abortedRuns r = false)
    (hmi0 : amGet st0.messageIndexByRun (runClientId st0 r) = none)
    (htr : ∀ x ∈ trace, x.runId = r ∧ (x.stream = "assistant" ∨ x.stream = "tool") ∧
      (x.stream = "tool" → x.dataName.isSome = true))
    (her : e.runId = r) (hes : e.stream = "assistant") (het : e.dataText = some t) :
    ((handleAgentEvent env now (processEvents env now st0 trace).1 e).2.filter isChatEm) =
      [⟨"chat", OutPayload.chatDelta (runClientId st0 r) sk e.seq (countToolStarts trace) t now,
          true, none⟩,
       ⟨"chat", OutPayload.chatDelta (runClientId st0 r) sk e.seq (countToolStarts trace) t now,
          false, some sk⟩] ∧
    (amGet (handleAgentEvent env now (processEvents env now st0 trace).1 e).1.messageIndexByRun
        (runClientId st0 r)).getD 0 = countToolStarts trace := by
  obtain ⟨hreg, habo, hmi⟩ := trace_mi env now r sk hskt trace st0 htr hsk hab1 hab2
  have hcnt : (amGet (processEvents env now st0 trace).1.messageIndexByRun
      (runClientId st0 r)).getD 0 = countToolStarts trace := by
    rw [hmi, hmi0]
    simp
  have hsk1 : sessionKeyOf env (processEvents env now st0 trace).1 e = some sk := by
    rw [sessionKeyOf_run env _ e r her, runSessionKey_congr env _ st0 r hreg]
    exact hsk
  have hcr1 : clientRunIdOf (processEvents env now st0 trace).1 e = runClientId st0 r := by
    rw [clientRunIdOf_run _ e r her, runClientId_congr _ st0 r hreg]
  have hab1' : isAbortedOf (processEvents env now st0 trace).1 e = false := by
    rw [isAbortedOf_run _ e r her, habo, runClientId_congr _ st0 r hreg, hab1, hab2]
    rfl
  have hout := handle_delta_out env now (processEvents env now st0 trace).1 e sk t hsk1 hskt hab1' hes het
  rw [hcr1, hcnt] at hout
  refine ⟨hout, ?_⟩
  rw [handle_mi_assistant env now _ e hes (runClientId st0 r), hcnt]

theorem C1_witness :
    ((handleAgentEvent cEnv 0 (processEvents cEnv 0 emptyRouterState
        [⟨"r1", 1, "assistant", none, none, some "Hello", none⟩,
         ⟨"r1", 2, "tool", some "start", some "search", none, none⟩,
         ⟨"r1", 3, "tool", some "result", some "search", none, none⟩]).1
        ⟨"r1", 4, "assistant", none, none, some "Found it", none⟩).2.filter isChatEm) =
      [⟨"chat", OutPayload.chatDelta "r1" "s1" 4 1 "Found it" 0, true, none⟩,
       ⟨"chat", OutPayload.chatDelta "r1" "s1" 4 1 "Found it" 0, false, some "s1"⟩] ∧
    (amGet (handleAgentEvent cEnv 0 (processEvents cEnv 0 emptyRouterState
        [⟨"r1", 1, "assistant", none, none, some "Hello", none⟩,
         ⟨"r1", 2, "tool", some "start", some "search", none, none⟩,
         ⟨"r1", 3, "tool", some "result", some "search", none, none⟩]).1
        ⟨"r1", 4, "assistant", none, none, some "Found it", none⟩).1.messageIndexByRun
      "r1").getD 0 = 1 :=
  C1_message_index_after_tool_starts cEnv 0 emptyRouterState "r1" "s1" "Found it"
    [⟨"r1", 1, "assistant", none, none, some "Hello", none⟩,
     ⟨"r1", 2, "tool", some "start", some "search", none, none⟩,
     ⟨"r1", 3, "tool", some "result", some "search", none, none⟩]
    ⟨"r1", 4, "assistant", none, none, some "Found it", none⟩
    (by decide) (by decide) (by decide) (by decide) (by decide) (by decide) (by decide) (by decide)
    (by decide)

theorem C2_witness :
    (handleAgentEvent cEnv 0 emptyRouterState
        ⟨"r1", 3, "assistant", none, none, some "x", none⟩).2.countP isGapEm = 1 ∧
    (⟨"agent", OutPayload.seqGap "r1" (some "s1") 0 1 3, false, none⟩ : Emission) ∈
      (handleAgentEvent cEnv 0 emptyRouterState
        ⟨"r1", 3, "assistant", none, none, some "x", none⟩).2 ∧
    amGet (handleAgentEvent cEnv 0 emptyRouterState
        ⟨"r1", 3, "assistant", none, none, some "x", none⟩).1.agentRunSeq "r1" = some 3 ∧
    handleAgentEvent cEnv 0 emptyRouterState
        ⟨"r1", 3, "assistant", none, none, some "x", none⟩ =
      ((handleAgentEvent cEnv 0
          { emptyRouterState with agentRunSeq := amSet emptyRouterState.agentRunSeq "r1" 2 }
          ⟨"r1", 3, "assistant", none, none, some "x", none⟩).1,
        [⟨"agent", OutPayload.seqGap "r1" (some "s1") 0 1 3, false, none⟩] ++
        (handleAgentEvent cEnv 0
          { emptyRouterState with agentRunSeq := amSet emptyRouterState.agentRunSeq "r1" 2 }
          ⟨"r1", 3, "assistant", none, none, some "x", none⟩).2) := by
  have h := C2_seq_gap_diagnostic cEnv 0 emptyRouterState
    ⟨"r1", 3, "assistant", none, none, some "x", none⟩
  exact ⟨(h.1.1 (by decide)).1, (h.1.1 (by decide)).2, h.2.1, h.2.2 (by decide)⟩

/-- Claim C3 counterexample: an aborted run with a RunLink whose
message-index map holds an entry under the internal run id; the terminal
lifecycle event deletes the entry for the client run id only, so the
internal-run-id entry survives — the claim's "message-index entry for
both the client and internal run ids" is not what the code does. -/
theorem C3_counterexample :
    isAbortedOf c3st c3evt = true ∧
    sessionKeyOf cEnv c3st c3evt = some "s1" ∧
    lifecyclePhaseOf c3evt = some "error" ∧
    amGet c3st.messageIndexByRun "runI" = some 2 ∧
    amGet (handleAgentEvent cEnv 0 c3st c3evt).1.messageIndexByRun "runI" = some 2 := by
  decide

/-- Claim C3 (amended): for an aborted run, no event produces a chat
notification, and the terminal lifecycle event performs cleanup only —
deleting the abort marker under both ids, deleting the message-index
entry under the client run id, and removing the RunLink if present. -/
theorem C3_amended_aborted_cleanup (env : Env) (now : Nat) (st : RouterState)
    (evt : AgentEvent) (sk : String) (hsk : sessionKeyOf env st evt = some sk)
    (hskt : strTruthy sk = true)
    (hab : isAbortedOf st evt = true) :
    (∀ em ∈ (handleAgentEvent env now st evt).2, isChatEm em = false) ∧
    (lifecyclePhaseOf evt = some "end" ∨ lifecyclePhaseOf evt = some "error" →
      amGet (handleAgentEvent env now st evt).1.abortedRuns (clientRunIdOf st evt) = none ∧
      amGet (handleAgentEvent env now st evt).1.abortedRuns evt.runId = none ∧
      amGet (handleAgentEvent env now st evt).1.messageIndexByRun (clientRunIdOf st evt) = none ∧
      ∀ l rest, chatLinkOf st evt = some l → amGet st.registry evt.runId = some (l :: rest) →
        amGet (handleAgentEvent env now st evt).1.registry evt.runId =
          (if rest.isEmpty then none else some rest)) := by
  refine ⟨handle_no_chat_aborted env now st evt hab, ?_⟩
  intro hterm
  obtain ⟨h1, h2, h3, hreg⟩ := handle_aborted_terminal_state env now st evt sk hsk hskt hab hterm
  refine ⟨h1, h2, h3, ?_⟩
  intro l rest hcl hq
  rw [hreg, hcl]
  simp only []
  have hcr : clientRunIdOf st evt = l.clientRunId := by
    unfold clientRunIdOf
    rw [hcl]
  have hske : sk = l.sessionKey := by
    have hs : sessionKeyOf env st evt = some l.sessionKey := by
      unfold sessionKeyOf
      rw [hcl]
    rw [hs] at hsk
    exact (Option.some_inj.mp hsk).symm
  have hm : entryMatches (clientRunIdOf st evt) (some sk) l = true := by
    unfold entryMatches optStrTruthy
    rw [hcr, hske]
    simp
  have hrm := registryRemove_found st.registry evt.runId (clientRunIdOf st evt) (some sk)
    [] l rest (by simpa using hq) (by simp) hm
  rw [hrm]
  simp only [List.nil_append]
  split
  · exact amGet_amDel_self _ _
  · exact amGet_amSet_self _ _ _

theorem C3_witness :
    (∀ em ∈ (handleAgentEvent cEnv 0 c3st c3evt).2, isChatEm em = false) ∧
    amGet (handleAgentEvent cEnv 0 c3st c3evt).1.abortedRuns "clientC" = none ∧
    amGet (handleAgentEvent cEnv 0 c3st c3evt).1.abortedRuns "runI" = none ∧
    amGet (handleAgentEvent cEnv 0 c3st c3evt).1.messageIndexByRun "clientC" = none ∧
    amGet (handleAgentEvent cEnv 0 c3st c3evt).1.registry "runI" = none := by
  have h := C3_amended_aborted_cleanup cEnv 0 c3st c3evt "s1" (by decide) (by decide) (by decide)
  refine ⟨h.1, (h.2 (by decide)).1, (h.2 (by decide)).2.1, (h.2 (by decide)).2.2.1, ?_⟩
  have hr := (h.2 (by decide)).2.2.2 ⟨"s1", "clientC"⟩ [] (by decide) (by decide)
  simpa using hr

/-- Claim C5: the pairer merges each call card with the first unconsumed
result matching by id then by name, carrying the call's metadata and the
result's text; the example call or result pair yields exactly one merged
card; each call yields exactly one output card; unconsumed results are
never dropped; a call with no matching result stays pending. -/
theorem C5_tool_card_pairing :
    (collectAndPairToolCards [[⟨"call", some "a", "search", none⟩],
        [⟨"result", some "a", "search", some "5 results"⟩]] =
      [⟨"call", some "a", "search", some "5 results"⟩]) ∧
    (∀ cardLists : List (List ToolCard),
      (pairCalls (collectCards cardLists).1 (collectCards cardLists).2).1.length =
        (collectCards cardLists).1.length) ∧
    (∀ cardLists : List (List ToolCard), ∀ i : Nat, ∀ r : ToolCard,
      (collectCards cardLists).2[i]? = some r →
      ¬ i ∈ (pairCalls (collectCards cardLists).1 (collectCards cardLists).2).2 →
      r ∈ collectAndPairToolCards cardLists) ∧
    (∀ c : ToolCard, ∀ results : List ToolCard,
      (∀ r ∈ results,
        (∀ cid, c.id = some cid → strTruthy cid = true → r.id ≠ some cid) ∧
        r.name ≠ c.name) →
      pairCalls [c] results = ([c], []) ∧ orphanResults results [] = results) := by
  refine ⟨by decide, fun cardLists => pairCalls_length _ _, ?_, ?_⟩
  · intro cardLists i r hr hi
    unfold collectAndPairToolCards
    simp only []
    rw [List.mem_append]
    right
    exact orphanResults_mem _ _ i r hr hi
  · intro c results h
    refine ⟨?_, orphanResults_nil_used results⟩
    unfold pairCalls
    simp only [List.foldl_cons, List.foldl_nil]
    unfold pairStep
    simp only []
    have hname : findMatch results [] (fun r => r.name == c.name) = none :=
      findMatch_isNone _ _ _ (fun r hr => by simp [(h r hr).2])
    rcases hid : c.id with _ | cid
    · simp [hname]
    · by_cases hcid : strTruthy cid = true
      · have hidm : findMatch results [] (fun r => r.id == some cid) = none :=
          findMatch_isNone _ _ _ (fun r hr => by simp [(h r hr).1 cid hid hcid])
        simp [hcid, hidm, hname]
      · simp [hcid, hname]

theorem C5_witness :
    pairCalls [⟨"call", some "z", "w", none⟩]
        [⟨"result", some "a", "search", some "5 results"⟩] =
      ([⟨"call", some "z", "w", none⟩], []) ∧
    orphanResults [⟨"result", some "a", "search", some "5 results"⟩] [] =
      [⟨"result", some "a", "search", some "5 results"⟩] :=
  C5_tool_card_pairing.2.2.2 ⟨"call", some "z", "w", none⟩
    [⟨"result", some "a", "search", some "5 results"⟩] (by decide)

/-- Claim C6: delivering the same delta payload twice leaves the
streaming-message array exactly as after the first delivery. -/
theorem C6_delta_idempotent (s : ChatState) (p : ChatEventPayload) (n1 n2 : Nat)
    (hp : p.state = "delta") :
    (handleChatEvent (handleChatEvent s (some p) n1).1 (some p) n2).1.chatStreamMessages =
      (handleChatEvent s (some p) n1).1.chatStreamMessages := by
  by_cases h1 : p.sessionKey ≠ s.sessionKey
  · rw [show handleChatEvent s (some p) n1 = (s, none) from by
      unfold handleChatEvent; simp only []; rw [if_pos h1]]
    simp only []
    rw [show handleChatEvent s (some p) n2 = (s, none) from by
      unfold handleChatEvent; simp only []; rw [if_pos h1]]
  · by_cases h2 : strTruthy p.runId = true ∧ optStrTruthy s.chatRunId = true ∧
        s.chatRunId ≠ some p.runId
    · rw [show handleChatEvent s (some p) n1 = (s, none) from by
        unfold handleChatEvent; simp only []; rw [if_neg h1, if_pos h2]]
      simp only []
      rw [show handleChatEvent s (some p) n2 = (s, none) from by
        unfold handleChatEvent; simp only []; rw [if_neg h1, if_pos h2]]
    · rcases hmt : p.messageText with _ | t
      · rw [show handleChatEvent s (some p) n1 = (s, some "delta") from by
          unfold handleChatEvent; simp only []; rw [if_neg h1, if_neg h2, if_pos hp, hmt]]
        simp only []
        rw [show handleChatEvent s (some p) n2 = (s, some "delta") from by
          unfold handleChatEvent; simp only []; rw [if_neg h1, if_neg h2, if_pos hp, hmt]]
      · rcases hfind : s.chatStreamMessages.find?
            (fun m => m.index == p.messageIndex.getD 0) with _ | y
        · have hin : handleChatEvent s (some p) n1 =
              ({ s with
                  chatStreamMessages := sortByIndex (s.chatStreamMessages ++
                    [⟨p.messageIndex.getD 0, t, n1⟩]) }, some "delta") := by
            unfold handleChatEvent
            simp only []
            rw [if_neg h1, if_neg h2, if_pos hp, hmt]
            simp only []
            rw [hfind]
          rw [hin]
          simp only []
          have hnew : (⟨p.messageIndex.getD 0, t, n1⟩ : StreamingMessage) ∈
              sortByIndex (s.chatStreamMessages ++ [⟨p.messageIndex.getD 0, t, n1⟩]) := by
            rw [mem_sortByIndex]
            simp
          have hmem2 : ((⟨p.messageIndex.getD 0, t, n1⟩ : StreamingMessage).index ==
              p.messageIndex.getD 0) = true := by simp
          rcases hfind1 : (sortByIndex (s.chatStreamMessages ++
              [⟨p.messageIndex.getD 0, t, n1⟩])).find?
              (fun m => m.index == p.messageIndex.getD 0) with _ | z
          · exfalso
            rw [List.find?_eq_none] at hfind1
            exact hfind1 _ hnew hmem2
          · have hout : handleChatEvent
                { s with
                    chatStreamMessages := sortByIndex (s.chatStreamMessages ++
                      [⟨p.messageIndex.getD 0, t, n1⟩]) } (some p) n2 =
                ({ s with
                    chatStreamMessages := updateFirstText
                      (sortByIndex (s.chatStreamMessages ++
                        [⟨p.messageIndex.getD 0, t, n1⟩])) (p.messageIndex.getD 0) t },
                  some "delta") := by
              unfold handleChatEvent
              simp only []
              rw [if_neg h1, if_neg h2, if_pos hp, hmt]
              simp only []
              rw [hfind1]
            rw [hout]
            simp only []
            apply updateFirstText_eq_self
            intro x hx hxi
            rw [mem_sortByIndex, List.mem_append] at hx
            rcases hx with hx | hx
            · exfalso
              rw [List.find?_eq_none] at hfind
              exact hfind x hx (by simp [hxi])
            · simp at hx
              rw [hx]
        · have hin : handleChatEvent s (some p) n1 =
              ({ s with
                  chatStreamMessages := updateFirstText s.chatStreamMessages
                    (p.messageIndex.getD 0) t }, some "delta") := by
            unfold handleChatEvent
            simp only []
            rw [if_neg h1, if_neg h2, if_pos hp, hmt]
            simp only []
            rw [hfind]
          rw [hin]
          simp only []
          have hy1 : y ∈ s.chatStreamMessages := List.mem_of_find?_eq_some hfind
          have hy2 : (y.index == p.messageIndex.getD 0) = true := by
            have hh := List.find?_some hfind
            simpa using hh
          have hex : ∃ x, x ∈ updateFirstText s.chatStreamMessages (p.messageIndex.getD 0) t ∧
              (x.index == p.messageIndex.getD 0) = true := by
            have hidx := updateFirstText_indexes s.chatStreamMessages (p.messageIndex.getD 0) t
            have hmm : (p.messageIndex.getD 0) ∈
                (updateFirstText s.chatStreamMessages (p.messageIndex.getD 0) t).map
                  (fun m => m.index) := by
              rw [hidx, List.mem_map]
              exact ⟨y, hy1, by simpa using hy2⟩
            rw [List.mem_map] at hmm
            obtain ⟨x, hx, hxe⟩ := hmm
            exact ⟨x, hx, by simp [hxe]⟩
          rcases hfind1 : (updateFirstText s.chatStreamMessages
              (p.messageIndex.getD 0) t).find?
              (fun m => m.index == p.messageIndex.getD 0) with _ | z
          · exfalso
            rw [List.find?_eq_none] at hfind1
            obtain ⟨x, hx, hxp⟩ := hex
            exact hfind1 x hx hxp
          · have hout : handleChatEvent
                { s with
                    chatStreamMessages := updateFirstText s.chatStreamMessages
                      (p.messageIndex.getD 0) t } (some p) n2 =
                ({ s with
                    chatStreamMessages := updateFirstText (updateFirstText
                      s.chatStreamMessages (p.messageIndex.getD 0) t)
                      (p.messageIndex.getD 0) t }, some "delta") := by
              unfold handleChatEvent
              simp only []
              rw [if_neg h1, if_neg h2, if_pos hp, hmt]
              simp only []
              rw [hfind1]
            rw [hout]
            simp only []
            exact updateFirstText_idem _ _ _

theorem C6_witness :
    (handleChatEvent (handleChatEvent
        ⟨true, true, "s1", false, [], none, false, "", some "r1", [], 0, none, none⟩
        (some ⟨"r1", "s1", "delta", some 0, some "hi", none, none⟩) 0).1
      (some ⟨"r1", "s1", "delta", some 0, some "hi", none, none⟩) 5).1.chatStreamMessages =
    (handleChatEvent
        ⟨true, true, "s1", false, [], none, false, "", some "r1", [], 0, none, none⟩
        (some ⟨"r1", "s1", "delta", some 0, some "hi", none, none⟩) 0).1.chatStreamMessages :=
  C6_delta_idempotent
    ⟨true, true, "s1", false, [], none, false, "", some "r1", [], 0, none, none⟩
    ⟨"r1", "s1", "delta", some 0, some "hi", none, none⟩ 0 5 (by decide)
